import Mathlib

/-!
Verification development for the `ace` agent-orchestrator package. Each
section is a shallow embedding of one component of the Python source, followed
by theorems about the embedded definitions. Machine arithmetic is modelled
with `Nat`/`Int`/`ℚ`; Python truthiness of optional strings is modelled
explicitly; fallible operations return `Option`/`Except`.
-/

namespace AceSpec

/-- Python truthiness of an `Optional[str]` value: `None` and the empty string
are falsy, every other string is truthy. -/
def pyTruthy : Option String → Bool
  | none => false
  | some v => v ≠ ""

/-- Python `str.strip()` (on ASCII whitespace): drop leading and trailing
whitespace characters. -/
def pyStrip (s : String) : String :=
  String.mk
    (((s.toList.dropWhile Char.isWhitespace).reverse.dropWhile
      Char.isWhitespace).reverse)

/-- Python `str.startswith(p)`. -/
def pyStartsWith (s p : String) : Bool := p.toList.isPrefixOf s.toList

/-- Numeric value of a digit list: `none` unless the list is nonempty and all
digits. Models Python `str.isdigit()` + `int()` on directory names, and the
digit runs of numeric parsing. -/
def digitsVal (l : List Char) : Option Nat :=
  if l ≠ [] ∧ l.all Char.isDigit then
    some (l.foldl (fun a c => a * 10 + (c.toNat - 48)) 0)
  else none

/-! ## Remote client retry layer (`src/ace/github/api_client.py`) -/

namespace ApiClient

/-- HTTP response headers consulted by the retry layer. `none` models an
absent header, `some v` a present header with value `v` (possibly empty). -/
structure Headers where
  retryAfter : Option String
  rateLimitRemaining : Option String
  rateLimitReset : Option String
deriving Repr, DecidableEq

/-- Subset model of Python `int(str)`: an optional sign followed by decimal
digits. Strings outside this form yield `none` (a `ValueError` in Python). -/
def parsePyInt (s : String) : Option Int :=
  match s.toList with
  | '+' :: rest => (digitsVal rest).map Int.ofNat
  | '-' :: rest => (digitsVal rest).map fun n => -(n : Int)
  | l => (digitsVal l).map Int.ofNat

/-- Value of an unsigned decimal literal with an optional fractional part
(accepting the Python-legal forms `"5"`, `"5.25"`, `"5."` and `".5"`). -/
def parseUnsignedFloat (l : List Char) : Option ℚ :=
  let intPart := l.takeWhile Char.isDigit
  let rest := l.dropWhile Char.isDigit
  let natVal : List Char → ℚ := fun ds =>
    ((ds.foldl (fun a c => a * 10 + (c.toNat - 48)) 0 : Nat) : ℚ)
  match rest with
  | [] => (digitsVal intPart).map fun n => (n : ℚ)
  | '.' :: fracPart =>
    if fracPart.all Char.isDigit ∧ (intPart ≠ [] ∨ fracPart ≠ []) then
      some (natVal intPart + natVal fracPart / (10 : ℚ) ^ fracPart.length)
    else none
  | _ => none

/-- Subset model of Python `float(str)`: an optional sign followed by a plain
decimal literal. Strings outside this form yield `none` (a `ValueError` in
Python). -/
def parsePyFloat (s : String) : Option ℚ :=
  match s.toList with
  | '+' :: rest => parseUnsignedFloat rest
  | '-' :: rest => (parseUnsignedFloat rest).map Neg.neg
  | l => parseUnsignedFloat l

/-- Translation of `GitHubAPIClient._should_retry` (api_client.py 201-213):
retry on 429/500/502/503/504, and on 403 when `X-RateLimit-Remaining` equals
`"0"` or a `Retry-After` header is present (presence, regardless of value). -/
def shouldRetry (status : Nat) (h : Headers) : Bool :=
  if status = 429 ∨ status = 500 ∨ status = 502 ∨ status = 503 ∨ status = 504 then
    true
  else if status = 403 then
    if h.rateLimitRemaining = some "0" then true
    else if h.retryAfter.isSome then true
    else false
  else false

/-- Translation of `GitHubAPIClient._rate_limit_delay` (api_client.py
226-245), with `now` standing for `time.time()`. A truthy `Retry-After`
header is float-parsed; on a parse failure the function returns `none`
without consulting the `X-RateLimit-*` headers. Otherwise, when
`X-RateLimit-Remaining == "0"` and `X-RateLimit-Reset` is truthy, the reset
value is int-parsed and the delay is `max 0 (reset - now) + 1`. -/
def rateLimitDelay (now : ℚ) : Option Headers → Option ℚ
  | none => none
  | some h =>
    if pyTruthy h.retryAfter then
      match parsePyFloat (h.retryAfter.getD "") with
      | some v => some v
      | none => none
    else if h.rateLimitRemaining = some "0" ∧ pyTruthy h.rateLimitReset then
      match parsePyInt (h.rateLimitReset.getD "") with
      | some r => some (max 0 ((r : ℚ) - now) + 1)
      | none => none
    else none

/-- Translation of `GitHubAPIClient._retry_delay` (api_client.py 215-224):
a header-derived delay if available, otherwise exponential backoff
`base * 2 ^ attempt` plus the drawn `jitter` (`random.uniform(0, base)`),
clamped to `maxDelay`. -/
def retryDelay (base maxDelay jitter now : ℚ) (attempt : Nat)
    (resp : Option Headers) : ℚ :=
  match rateLimitDelay now resp with
  | some d => d
  | none => min maxDelay (base * 2 ^ attempt + jitter)

/-- Definition written from the words of claim C5 (not from the source), for
comparison with `retryDelay`: first matching rule wins — a float-parsable
`Retry-After` header gives that many seconds; otherwise
`X-RateLimit-Remaining == "0"` with a parsable `X-RateLimit-Reset` gives
`max 0 (reset - now) + 1`; otherwise backoff clamped to `maxDelay`. -/
def claimRetryDelay (base maxDelay jitter now : ℚ) (attempt : Nat)
    (resp : Option Headers) : ℚ :=
  let backoff := min maxDelay (base * 2 ^ attempt + jitter)
  match resp with
  | none => backoff
  | some h =>
    match h.retryAfter.bind parsePyFloat with
    | some v => v
    | none =>
      if h.rateLimitRemaining = some "0" then
        match h.rateLimitReset.bind parsePyInt with
        | some r => max 0 ((r : ℚ) - now) + 1
        | none => backoff
      else backoff

/-- One attempt's outcome inside `GitHubAPIClient._request`: either the
transport layer raised, or a response arrived. -/
inductive Outcome
  | transportError
  | response (status : Nat) (headers : Headers)
deriving Repr, DecidableEq

/-- Result of `_request`, recording how many attempts were consumed.
`transportFailure` models the final transport error being re-raised;
`outOfFuel` is unreachable for fuel `maxRetries + 1`. -/
inductive ReqResult
  | ok (status : Nat) (headers : Headers) (attempts : Nat)
  | transportFailure (attempts : Nat)
  | outOfFuel
deriving Repr, DecidableEq

/-- The retry conditions of `_request` (api_client.py 167 and 183): every
transport error is retryable, a response is retryable when its status is at
least 400 and `_should_retry` accepts it. -/
def retryableOutcome : Outcome → Bool
  | .transportError => true
  | .response st h => decide (400 ≤ st) && shouldRetry st h

/-- Worker for `request`; `attempt` is the current attempt index and the
fuel bounds the remaining iterations. -/
def requestAux (maxRetries : Nat) (outcomes : Nat → Outcome) :
    Nat → Nat → ReqResult
  | 0, _ => .outOfFuel
  | fuel + 1, attempt =>
    match outcomes attempt with
    | .transportError =>
      if maxRetries ≤ attempt then .transportFailure (attempt + 1)
      else requestAux maxRetries outcomes fuel (attempt + 1)
    | .response st h =>
      if 400 ≤ st ∧ shouldRetry st h = true then
        if maxRetries ≤ attempt then .ok st h (attempt + 1)
        else requestAux maxRetries outcomes fuel (attempt + 1)
      else .ok st h (attempt + 1)

/-- Translation of `GitHubAPIClient._request` (api_client.py 161-199):
attempts are numbered from 0; outcome `k` is what attempt `k` produced; a
retryable outcome is retried while `attempt < maxRetries`; exhaustion returns
the final response, or re-raises the final transport error. -/
def request (maxRetries : Nat) (outcomes : Nat → Outcome) : ReqResult :=
  requestAux maxRetries outcomes (maxRetries + 1) 0

/-- Number of attempts a finished `request` consumed. -/
def attemptsMade : ReqResult → Nat
  | .ok _ _ n => n
  | .transportFailure n => n
  | .outOfFuel => 0

end ApiClient

/-! ## Instruction builder (`src/ace/orchestration/task_manager.py`) -/

namespace InstrBuilder

/-- Fields of `TaskItem` used by the instruction builder. -/
structure TaskItem where
  taskId : String
  title : String
  description : String
  acceptanceCriteria : List String
deriving Repr, DecidableEq

/-- Translation of `InstructionBuilder._fallback_instructions` (task_manager.py
247-258): joined acceptance criteria (or `"- N/A"` when the join is empty)
inside a fixed Markdown template. -/
def fallbackInstructions (task : TaskItem) : String :=
  let joined := String.intercalate "\n"
    (task.acceptanceCriteria.map fun item => "- " ++ item)
  let criteria := if joined = "" then "- N/A" else joined
  "## Task\n" ++ task.title ++ "\n\n" ++ task.description ++ "\n\n" ++
    "## Acceptance Criteria\n" ++ criteria ++ "\n\n" ++
    "## Steps\n" ++ "1. Review the issue details and repo context.\n" ++
    "2. Implement the changes for this task.\n" ++
    "3. Run relevant tests and validate behavior.\n"

/-- Translation of `InstructionBuilder.build` (task_manager.py 186-201).
`modelCall` is the outcome of `_call_model`: `Except.ok text` when the model
returned `text`, `Except.error e` when the call raised. `build` returns the
model text unchanged; when the call raised it logs and returns the fallback
instructions. The codomain keeps an error case so that the absence of any
raised validation error is expressible; the issue argument of the source only
feeds the prompt and log metadata and does not affect the result. -/
def build (modelCall : Except String String) (task : TaskItem) :
    Except String String :=
  match modelCall with
  | .ok text => .ok text
  | .error _ => .ok (fallbackInstructions task)

/-- The refusal reply used by the spec's refusal scenario. -/
def refusalReply : String := "I\x27m sorry, but I can\x27t help with that."

/-- Sample task used to instantiate the instruction-builder theorems. -/
def sampleTask : TaskItem :=
  ⟨"task-1", "Add dark mode", "Add a dark mode toggle.", ["Toggle works"]⟩

end InstrBuilder

/-! ## Agent pool (`src/ace/runners/agent_pool.py`) -/

namespace Pool

/-- Fields of `ace.github.issue_queue.Issue` consulted by the pool logic.
`repoOwner`/`repoName` are `str | None` in the source; `""` models the falsy
values (`None` and the empty string). Fields the pool never reads (body,
state, timestamps, html url) are elided. -/
structure Issue where
  number : Nat
  title : String
  labels : List String
  assignee : Option String
  repoOwner : String
  repoName : String
deriving Repr, DecidableEq

/-- Translation of `AgentPool._issue_key`. -/
def issueKey (i : Issue) : String :=
  "issue:" ++ i.repoOwner ++ "/" ++ i.repoName ++ "#" ++ toString i.number

/-- Translation of `AgentPool._pr_comment_key`. -/
def prCommentKey (i : Issue) (commentId : Nat) : String :=
  "pr_comment:" ++ i.repoOwner ++ "/" ++ i.repoName ++ "#" ++
    toString i.number ++ ":" ++ toString commentId

/-- The pool's target selection (`AgentTarget`). -/
inductive AgentTarget
  | localTarget
  | remoteTarget
  | anyTarget
deriving Repr, DecidableEq

/-- Pool configuration: the target, the two routing labels from settings, and
`max_issues_per_run` (0 = unlimited). -/
structure PoolCfg where
  target : AgentTarget
  localLabel : String
  remoteLabel : String
  maxIssuesPerRun : Nat
deriving Repr, DecidableEq

/-- Translation of `AgentPool._matches_target` (agent_pool.py 361-386). -/
def matchesTarget (cfg : PoolCfg) (i : Issue) : Bool :=
  match cfg.target with
  | .anyTarget => true
  | .localTarget => decide (cfg.localLabel ∈ i.labels)
  | .remoteTarget => decide (cfg.remoteLabel ∈ i.labels)

/-- Translation of `AgentPool._filter_actionable` (agent_pool.py 394-400):
keep issues carrying the remote or the local agent label. -/
def filterActionable (cfg : PoolCfg) (issues : List Issue) : List Issue :=
  issues.filter fun i =>
    decide (cfg.remoteLabel ∈ i.labels) || decide (cfg.localLabel ∈ i.labels)

/-- An inline PR review comment as fetched from the API. Only the id is
consulted by the queue construction (`id = 0` models a missing/falsy id); the
remaining fields only travel inside the work metadata, which the claims under
study do not read. -/
structure ReviewComment where
  id : Nat
deriving Repr, DecidableEq

/-- One element of the list built by `fetch_pr_comment_work_items`. -/
structure PrWorkItem where
  issue : Issue
  key : String
deriving Repr, DecidableEq

/-- Translation of `AgentPool.fetch_pr_comment_work_items` (agent_pool.py
495-537). `prs` pairs each PR issue returned by `fetch_pr_comment_issues`
(already label-filtered for the pool's target) with its review comments;
`processed` is `self._processed_issues`. PRs with a falsy owner or repo are
skipped, comments with a falsy id are skipped, and comments whose WorkKey was
already processed this run are skipped. -/
def fetchPrCommentWorkItems (processed : List String)
    (prs : List (Issue × List ReviewComment)) : List PrWorkItem :=
  prs.foldl (fun items pr =>
    if pr.1.repoOwner = "" || pr.1.repoName = "" then items
    else items ++ pr.2.filterMap fun c =>
      if c.id = 0 then none
      else
        let key := prCommentKey pr.1 c.id
        if decide (key ∈ processed) then none
        else some ⟨pr.1, key⟩) []

/-- Translation of the filtering in `AgentPool.fetch_in_progress_issues`
(agent_pool.py 651-693) with the manager advisor disabled: from the board's
`In Progress` query result `raw`, drop issues whose key is already processed,
issues not matching the pool target, issues without an agent label, issues
with a blocker not in Done status (`blocked`, the outcome of
`_has_blockers_not_done`), and issues with a truthy assignee. -/
def fetchInProgressIssues (cfg : PoolCfg) (processed : List String)
    (blocked : Issue → Bool) (raw : List Issue) : List Issue :=
  raw.filter fun i =>
    !decide (issueKey i ∈ processed) && matchesTarget cfg i &&
      !(filterActionable cfg [i]).isEmpty && !blocked i &&
      !pyTruthy i.assignee

/-- Translation of the filtering in `AgentPool.fetch_ready_issues`
(agent_pool.py 539-604) with the manager advisor disabled: from the `Ready`
query result `raw`, drop processed keys, then non-target issues, then issues
with a blocker not in Done status. Hydration returns the issue unchanged in
this model. -/
def fetchReadyIssues (cfg : PoolCfg) (processed : List String)
    (blocked : Issue → Bool) (raw : List Issue) : List Issue :=
  (((raw.filter fun i => !decide (issueKey i ∈ processed)).filter
      fun i => matchesTarget cfg i).filter fun i => !blocked i)

/-- Translation of `AgentPool._build_work_queue` (agent_pool.py 402-466) with
the manager advisor disabled (`manager_agent_enabled = false`, so the reorder
block on lines 441-466 is not entered). Inputs are the fetch results: the PR
issues with their review comments and the already-filtered in-progress and
ready lists. Line 410 of the source rebinds `pr_items` to the empty list
immediately before the dedup loop, so the PR work items fetched on line 404
never reach the queue; the translation preserves this (the fetched list is
bound and discarded exactly as in the source). -/
def buildWorkQueue (cfg : PoolCfg) (processed : List String)
    (prs : List (Issue × List ReviewComment))
    (inProgressFetched readyFetched : List Issue) : List (Issue × String) :=
  let _prItemsFetched := fetchPrCommentWorkItems processed prs
  let inProgress := filterActionable cfg inProgressFetched
  let ready := filterActionable cfg readyFetched
  let prItems : List PrWorkItem := []
  let seenNumbers : List Nat := []
  let inProgress := inProgress.filter fun i => !decide (i.number ∈ seenNumbers)
  let ready := ready.filter fun i => !decide (i.number ∈ seenNumbers)
  prItems.map (fun it => (it.issue, it.key)) ++
    inProgress.map (fun i => (i, issueKey i)) ++
    ready.map (fun i => (i, issueKey i))

/-- Slot states (`AgentState`). -/
inductive AgentState
  | idle
  | running
  | completed
  | failed
deriving Repr, DecidableEq

/-- One pool slot (`AgentSlot`), keeping the fields the claims read. -/
structure AgentSlot where
  slotId : Nat
  state : AgentState
  issue : Option Issue
  workKey : Option String
deriving Repr, DecidableEq

/-- Mutable pool state (`AgentPool`): the slot table, the processed-WorkKey
set (a list in insertion order), the latched fatal error, the loop flags and
counters. `spawnLog` is instrumentation recording every spawned WorkKey in
order: it is appended exactly when `spawn_agent` succeeds. -/
structure PoolState where
  slots : List AgentSlot
  processed : List String
  fatalError : Option String
  running : Bool
  draining : Bool
  completedCount : Nat
  failedCount : Nat
  sessionProcessed : Nat
  spawnLog : List String
deriving Repr, DecidableEq

/-- Fresh pool of `maxAgents` idle slots (`AgentPool.__init__`). -/
def initState (maxAgents : Nat) : PoolState :=
  { slots := (List.range maxAgents).map fun i => ⟨i, .idle, none, none⟩
    processed := []
    fatalError := none
    running := false
    draining := false
    completedCount := 0
    failedCount := 0
    sessionProcessed := 0
    spawnLog := [] }

/-- Translation of `AgentPool._format_fatal_error` (agent_pool.py 176-180):
the falsy-defaulted message is stripped and prefixed with `"❌ ERROR: "`
unless it already starts with `"❌ ERROR"`. -/
def formatFatalError (e : String) : String :=
  let message := pyStrip (if e = "" then "unexpected failure" else e)
  if pyStartsWith message "❌ ERROR" then message else "❌ ERROR: " ++ message

/-- Translation of `AgentPool.stop` (agent_pool.py 1239-1243). -/
def stopPool (st : PoolState) : PoolState :=
  { st with running := false, draining := false }

/-- Translation of `AgentPool._set_fatal_error` (agent_pool.py 182-186):
first writer wins, the formatted error is latched, and `stop()` is called. -/
def setFatalError (st : PoolState) (e : String) : PoolState :=
  if st.fatalError.isSome then st
  else stopPool { st with fatalError := some (formatFatalError e) }

/-- Translation of `AgentPool._get_idle_slot` (agent_pool.py 264-269),
returning the index of the first idle slot. -/
def getIdleSlotIdx : List AgentSlot → Option Nat
  | [] => none
  | s :: rest =>
    if s.state = .idle then some 0 else (getIdleSlotIdx rest).map (· + 1)

/-- Number of idle slots (`get_status().idle_slots`). -/
def idleCount (st : PoolState) : Nat :=
  (st.slots.filter fun s => decide (s.state = .idle)).length

/-- Placeholder slot for the (unreachable) out-of-range `getD`. -/
def defaultSlot : AgentSlot := ⟨0, .idle, none, none⟩

/-- Translation of `AgentPool.spawn_agent` (agent_pool.py 861-885): take the
first idle slot (`none` means no spawn, returning `False`); otherwise reserve
it — state `running`, issue recorded — then add the WorkKey to the processed
set and record it on the slot, and finally create the workflow task. The
workflow body runs later (`runAgentForIssue`), so the returned state is the
state in which the task starts. The returned index identifies the reserved
slot. -/
def spawnAgent (st : PoolState) (issue : Issue) (workKey : String) :
    PoolState × Option Nat :=
  match getIdleSlotIdx st.slots with
  | none => (st, none)
  | some i =>
    let slot := st.slots.getD i defaultSlot
    let slot2 : AgentSlot :=
      { slot with state := .running, issue := some issue, workKey := some workKey }
    ({ st with slots := st.slots.set i slot2,
               processed := st.processed ++ [workKey],
               spawnLog := st.spawnLog ++ [workKey] }, some i)

/-- Outcome of one per-item workflow, as observed by
`_run_agent_for_issue`: the graph finished with a success result, or an
exception was raised / the agent result was non-success (re-raised as a
`RuntimeError` on line 802 and caught by the same function). -/
inductive WorkflowOutcome
  | success
  | failure (message : String)
deriving Repr, DecidableEq

/-- Translation of the net state effect of `AgentPool._run_agent_for_issue`
(agent_pool.py 724-859). On success the completed and session counters grow;
on failure the failed and session counters grow and `_set_fatal_error`
latches the message and stops the pool (line 851); the `finally` block then
returns the slot to idle with its issue and WorkKey cleared. For a
non-success agent result the caught message is already `"❌ ERROR:"`-prefixed
by line 802; `formatFatalError` leaves such messages unchanged, so passing the
original message is equivalent. -/
def runAgentForIssue (st : PoolState) (slotIdx : Nat)
    (outcome : WorkflowOutcome) : PoolState :=
  let finalize : PoolState → PoolState := fun st =>
    let cleared : AgentSlot :=
      { st.slots.getD slotIdx defaultSlot with
          state := .idle, issue := none, workKey := none }
    { st with slots := st.slots.set slotIdx cleared }
  match outcome with
  | .success =>
    finalize { st with completedCount := st.completedCount + 1,
                       sessionProcessed := st.sessionProcessed + 1 }
  | .failure m =>
    finalize (setFatalError
      { st with failedCount := st.failedCount + 1,
                sessionProcessed := st.sessionProcessed + 1 } m)

/-- Raw fetch results feeding one `process_work_queue` pass: the open PRs
with their review comments, and the board query results for `In Progress`
and `Ready`. -/
structure PassInputs where
  prs : List (Issue × List ReviewComment)
  inProgressRaw : List Issue
  readyRaw : List Issue

/-- Spawn loop of `process_work_queue` (agent_pool.py 927-938): walk the
queue, stopping when no slot is idle. -/
def spawnLoop : PoolState → List (Issue × String) → PoolState
  | st, [] => st
  | st, (issue, key) :: rest =>
    if idleCount st = 0 then st
    else spawnLoop (spawnAgent st issue key).1 rest

/-- Translation of `AgentPool.process_work_queue` (agent_pool.py 887-953):
raise the latched fatal error if set; return unchanged when
`max_issues_per_run` is reached; otherwise build the queue from the current
fetch results, truncate it to the remaining budget, and run the spawn loop. -/
def processWorkQueuePass (cfg : PoolCfg) (blocked : Issue → Bool)
    (st : PoolState) (inp : PassInputs) : Except String PoolState :=
  match st.fatalError with
  | some e => .error e
  | none =>
    if cfg.maxIssuesPerRun > 0 ∧ cfg.maxIssuesPerRun ≤ st.sessionProcessed then
      .ok st
    else
      let queue := buildWorkQueue cfg st.processed inp.prs
        (fetchInProgressIssues cfg st.processed blocked inp.inProgressRaw)
        (fetchReadyIssues cfg st.processed blocked inp.readyRaw)
      let queue := if cfg.maxIssuesPerRun > 0 then
          queue.take (cfg.maxIssuesPerRun - st.sessionProcessed)
        else queue
      .ok (spawnLoop st queue)

/-- One scheduler-visible event of a process run: a `process_work_queue` pass
(with its fetch results), or the completion of a previously spawned workflow
task on a slot. -/
inductive PoolEvent
  | pass (inp : PassInputs)
  | finish (slotIdx : Nat) (outcome : WorkflowOutcome)

/-- Apply one event. A pass that raises the latched fatal error leaves the
state unchanged. -/
def stepEvent (cfg : PoolCfg) (blocked : Issue → Bool) (st : PoolState) :
    PoolEvent → PoolState
  | .pass inp =>
    match processWorkQueuePass cfg blocked st inp with
    | .ok st2 => st2
    | .error _ => st
  | .finish i outcome => runAgentForIssue st i outcome

/-- A whole process run: fold the events over the pool state. -/
def runEvents (cfg : PoolCfg) (blocked : Issue → Bool) (st : PoolState)
    (evts : List PoolEvent) : PoolState :=
  evts.foldl (stepEvent cfg blocked) st

/-- Well-formedness of one pass's board query results: each status query
lists an issue key at most once, and — status being a single-select field —
no issue key is listed by both the `In Progress` and the `Ready` query. -/
def passWF (inp : PassInputs) : Bool :=
  decide (inp.inProgressRaw.map issueKey).Nodup &&
    decide (inp.readyRaw.map issueKey).Nodup &&
    (inp.inProgressRaw.map issueKey).all fun k =>
      !decide (k ∈ inp.readyRaw.map issueKey)

/-- Well-formedness of an event: pass inputs must be well-formed. -/
def eventWF : PoolEvent → Bool
  | .pass inp => passWF inp
  | .finish _ _ => true

/-- Invariant tying the spawn log to the processed set. -/
def poolInv (st : PoolState) : Prop :=
  st.spawnLog.Nodup ∧ ∀ k ∈ st.spawnLog, k ∈ st.processed

/-- Sample configuration: a remote-target pool with the default labels and no
per-run limit. -/
def sampleCfg : PoolCfg :=
  ⟨.remoteTarget, "agent:local", "agent:remote", 0⟩

/-- Sample PR issue `o/r#5` carrying the remote agent label. -/
def samplePr : Issue :=
  ⟨5, "Fix bug", ["agent:remote"], none, "o", "r"⟩

/-- Sample pool state: slot 0 is running issue `o/r#5`, whose key is in the
processed set; no fatal error is latched. -/
def samplePoolState : PoolState :=
  { slots := [⟨0, .running, some samplePr, some (issueKey samplePr)⟩,
              ⟨1, .idle, none, none⟩]
    processed := [issueKey samplePr]
    fatalError := none
    running := true
    draining := false
    completedCount := 0
    failedCount := 0
    sessionProcessed := 0
    spawnLog := [issueKey samplePr] }

end Pool

/-! ## Done-marker wait loop with nudges (`src/ace/orchestration/graph.py`) -/

namespace Nudge

/-- Nudge-related settings read by `_wait_for_done_marker_with_nudges`. -/
structure NudgeCfg where
  nudgeEnabled : Bool
  nudgeAfterSeconds : Int
  nudgeIntervalSeconds : Int
  nudgeMaxAttempts : Nat
deriving Repr, DecidableEq

/-- Environment of one wait: `marker k` is whether `ACE_TASK_DONE.json`
exists at the start of iteration `k`; `signature k` is the result of the
`k`-th call to `progress_signature` (call 0 happens before the loop, call
`k + 1` inside iteration `k`); `sessionExists k` is the
`tmux.session_exists` answer during iteration `k`. -/
structure WaitEnv where
  marker : Nat → Bool
  signature : Nat → String
  sessionExists : Nat → Bool

/-- Loop-carried state of the wait loop. `lastNudgeTime = 0` doubles as the
"never nudged" sentinel, exactly as the source's `last_nudge_time = 0.0`.
`nudgesSent` is instrumentation counting delivered nudge messages. -/
structure WaitState where
  lastSignature : String
  lastProgressTime : Int
  lastNudgeTime : Int
  nudgeCount : Nat
  nudgesSent : Nat
deriving Repr, DecidableEq

/-- Exit status of the wait loop. `fuelExhausted` stands for the loop still
running after the modelled number of iterations. -/
inductive WaitResult
  | done
  | nudgeExceeded
  | timeout
  | fuelExhausted
deriving Repr, DecidableEq

/-- Signature-change bookkeeping at the top of a wait iteration (graph.py
93-97): a truthy, changed progress signature resets the progress clock to
`now` and zeroes the nudge count. -/
def sigUpdate (env : WaitEnv) (k : Nat) (now : Int) (st : WaitState) :
    WaitState :=
  if env.signature (k + 1) ≠ "" ∧ env.signature (k + 1) ≠ st.lastSignature then
    { st with lastSignature := env.signature (k + 1),
              lastProgressTime := now, nudgeCount := 0 }
  else st

/-- The nudge block of a wait iteration (graph.py 100-144), entered only when
a session name was given, nudging is enabled, `task_nudge_after_seconds > 0`
and the progress clock has been stale for that long. `some nudgeExceeded`
models the early returns: the attempt cap was reached (only checked when
`task_nudge_max_attempts > 0`), or the session is gone. Otherwise, when the
cadence allows (`last_nudge_time` still the 0 sentinel, or the interval
elapsed), one nudge is delivered and counted. -/
def nudgeStep (cfg : NudgeCfg) (env : WaitEnv) (hasSession : Bool) (k : Nat)
    (now : Int) (st : WaitState) : Option WaitResult × WaitState :=
  if hasSession ∧ cfg.nudgeEnabled ∧ cfg.nudgeAfterSeconds > 0 ∧
      cfg.nudgeAfterSeconds ≤ now - st.lastProgressTime then
    if cfg.nudgeMaxAttempts > 0 ∧ cfg.nudgeMaxAttempts ≤ st.nudgeCount then
      (some .nudgeExceeded, st)
    else if st.lastNudgeTime = 0 ∨
        cfg.nudgeIntervalSeconds ≤ now - st.lastNudgeTime then
      if env.sessionExists k then
        (none, { st with nudgeCount := st.nudgeCount + 1, lastNudgeTime := now,
                         nudgesSent := st.nudgesSent + 1 })
      else (some .nudgeExceeded, st)
    else (none, st)
  else (none, st)

/-- Translation of the body of `_wait_for_done_marker_with_nudges` (graph.py
88-151). Iteration `k` runs at time `t0 + k * pollInterval`: the loop sleeps
`pollInterval` seconds at the end of every iteration and the model treats the
other operations of an iteration as instantaneous. `hasSession` is whether a
`session_name` was passed (the source guards the whole nudge block on it);
`timeoutSeconds = none` models `timeout_seconds is None`. -/
def waitAux (cfg : NudgeCfg) (env : WaitEnv) (hasSession : Bool)
    (pollInterval t0 : Int) (timeoutSeconds : Option Int) :
    Nat → Nat → WaitState → WaitResult × Nat
  | 0, _, st => (.fuelExhausted, st.nudgesSent)
  | fuel + 1, k, st =>
    if env.marker k then (.done, st.nudgesSent)
    else
      match nudgeStep cfg env hasSession k (t0 + k * pollInterval)
          (sigUpdate env k (t0 + k * pollInterval) st) with
      | (some r, st2) => (r, st2.nudgesSent)
      | (none, st2) =>
        match timeoutSeconds with
        | some ts =>
          if ts > 0 ∧ ts ≤ (t0 + k * pollInterval) - t0 then
            (.timeout, st2.nudgesSent)
          else waitAux cfg env hasSession pollInterval t0 timeoutSeconds
            fuel (k + 1) st2
        | none =>
          waitAux cfg env hasSession pollInterval t0 timeoutSeconds
            fuel (k + 1) st2

/-- Entry point of the wait loop (graph.py 80-87): the initial signature is
`progress_signature` call 0, the progress clock starts at `t0`, the nudge
sentinel is 0 and no nudges have been counted. Returns the exit status and
the number of nudges delivered. -/
def waitLoop (cfg : NudgeCfg) (env : WaitEnv) (hasSession : Bool)
    (pollInterval t0 : Int) (timeoutSeconds : Option Int) (fuel : Nat) :
    WaitResult × Nat :=
  waitAux cfg env hasSession pollInterval t0 timeoutSeconds fuel 0
    { lastSignature := env.signature 0, lastProgressTime := t0,
      lastNudgeTime := 0, nudgeCount := 0, nudgesSent := 0 }

/-- Sample configuration with `nudgeMaxAttempts = 0`: nudging enabled, nudge
after 60 s of no progress, 30 s between nudges. -/
def sampleNudgeCfg : NudgeCfg := ⟨true, 60, 30, 0⟩

/-- Sample environment: the marker never appears, the progress signature
never changes, the session always exists. -/
def sampleWaitEnv : WaitEnv := ⟨fun _ => false, fun _ => "sig", fun _ => true⟩

end Nudge

/-! ## Workspace git operations (`src/ace/workspaces/git_ops.py`) -/

namespace GitOpsM

/-- Filesystem effects issued while materializing a worktree. -/
inductive FsAction
  | makeParentDirs (path : String)
  | gitClone (url : String) (dest : String)
deriving Repr, DecidableEq

/-- Paths existing on the local filesystem. -/
structure Fs where
  existing : List String
deriving Repr, DecidableEq

/-- Whether a path exists (`Path.exists`). -/
def Fs.existsPath (fs : Fs) (p : String) : Bool := decide (p ∈ fs.existing)

/-- Translation of `GitOps.get_worktree_path` (git_ops.py 25-35). -/
def getWorktreePath (workspaceRoot repoName : String) (issueNumber : Nat) :
    String :=
  workspaceRoot ++ "/worktrees/" ++ repoName ++ "/" ++ toString issueNumber

/-- Translation of `GitOps.clone_repo` (git_ops.py 64-101) as the sequence of
filesystem effects it issues: create the parent directories, then run
`git clone` into the worktree path — unconditionally. The source contains no
check of whether the worktree path already exists, which is why the `fs`
argument is unused; a pre-existing non-empty destination makes the clone
subprocess fail, raising `CalledProcessError`. -/
def cloneRepoActions (_fs : Fs) (workspaceRoot repoUrl repoName : String)
    (issueNumber : Nat) : List FsAction :=
  let worktreePath := getWorktreePath workspaceRoot repoName issueNumber
  [.makeParentDirs worktreePath, .gitClone repoUrl worktreePath]

/-- Translation of the clone guard at the call site, `run_agent` (graph.py
259-262): `clone_repo` is invoked only when the worktree path does not
exist. -/
def ensureWorktreeActions (fs : Fs) (workspaceRoot repoUrl repoName : String)
    (issueNumber : Nat) : List FsAction :=
  if fs.existsPath (getWorktreePath workspaceRoot repoName issueNumber) then []
  else cloneRepoActions fs workspaceRoot repoUrl repoName issueNumber

end GitOpsM

/-! ## Resource reclaimer (`src/ace/runners/agent_pool.py`,
`src/ace/workspaces/tmux_ops.py`) -/

namespace Reclaimer

/-- Characters the session-name sanitizer keeps verbatim: `[a-zA-Z0-9_-]`. -/
def allowedChar (c : Char) : Bool :=
  c.isAlpha || c.isDigit || c == '_' || c == '-'

/-- Replace each maximal run of disallowed characters with a single `-`
(the `re.sub` in `session_name_for_issue`); `prevBad` records whether the
previous character was part of such a run. -/
def collapseAux : Bool → List Char → List Char
  | _, [] => []
  | prevBad, c :: rest =>
    if allowedChar c then c :: collapseAux false rest
    else if prevBad then collapseAux true rest
    else '-' :: collapseAux true rest

/-- Python `str.strip("-")`: drop leading and trailing dashes. -/
def stripDashes (l : List Char) : List Char :=
  ((l.dropWhile fun c => c == '-').reverse.dropWhile fun c => c == '-').reverse

/-- Translation of `session_name_for_issue` (tmux_ops.py 15-18): sanitize
`"ace-<repo>-<number>"` and truncate to 60 characters. -/
def sessionNameForIssue (repoName : String) (issueNumber : Nat) : String :=
  let raw := "ace-" ++ repoName ++ "-" ++ toString issueNumber
  let slug := String.mk (stripDashes (collapseAux false raw.toList))
  if slug.length > 60 then String.mk (slug.toList.take 60) else slug

/-- One directory `<workspaceRoot>/worktrees/<repo>/<name>` as the sweep sees
it: the directory's mtime, and the mtime of `ace_tasks.json` inside it when
that file exists (epoch seconds). -/
structure WorktreeDir where
  repo : String
  name : String
  mtime : Int
  tasksMtime : Option Int
deriving Repr, DecidableEq

/-- Cleanup settings read by the worktree sweep. -/
structure CleanupCfg where
  cleanupOnlyDone : Bool
  worktreeRetentionHours : Int
deriving Repr, DecidableEq

/-- Last-activity time of a directory: the directory mtime, maxed with the
`ace_tasks.json` mtime when that marker exists (agent_pool.py 1295-1298). -/
def lastActivity (d : WorktreeDir) : Int :=
  match d.tasksMtime with
  | some t => max d.mtime t
  | none => d.mtime

/-- Decision for one directory in the worktree sweep of
`AgentPool._cleanup_stale_resources` (agent_pool.py 1277-1310): `true` means
`cleanup_worktree` is invoked on it. `activeIssues` holds the issue numbers
of RUNNING slots that hold an issue; `sessionExists` models
`tmux.session_exists`; `now` is `datetime.utcnow()` in epoch seconds.
Non-digit directory names are skipped; then, in order: directories of active
issue numbers, directories whose session exists, every directory when
`cleanup_only_done` is set, and directories younger than the retention are
all skipped. -/
def sweepRemoves (cfg : CleanupCfg) (activeIssues : List Nat)
    (sessionExists : String → Bool) (now : Int) (d : WorktreeDir) : Bool :=
  match digitsVal d.name.toList with
  | none => false
  | some issueNumber =>
    if decide (issueNumber ∈ activeIssues) then false
    else if sessionExists (sessionNameForIssue d.repo issueNumber) then false
    else if cfg.cleanupOnlyDone then false
    else if now - lastActivity d < cfg.worktreeRetentionHours * 3600 then false
    else true

/-- The set of directories one sweep removes. -/
def sweepWorktrees (cfg : CleanupCfg) (activeIssues : List Nat)
    (sessionExists : String → Bool) (now : Int) (dirs : List WorktreeDir) :
    List WorktreeDir :=
  dirs.filter (sweepRemoves cfg activeIssues sessionExists now)

/-- Sample stale directory `r/5`, last touched at epoch 0. -/
def sampleDir : WorktreeDir := ⟨"r", "5", 0, none⟩

end Reclaimer

/-! ## Webhook endpoint (`src/ace/runners/service.py`) -/

namespace Webhook

/-- The parts of an incoming request the webhook handler reads:
the `X-Hub-Signature-256` header (absent or present), the raw body, whether
`request.json()` can parse the body, and the `X-GitHub-Event` header. -/
structure WebhookRequest where
  signatureHeader : Option String
  body : String
  bodyIsJson : Bool
  eventHeader : String
deriving Repr, DecidableEq

/-- Responses of the webhook handler. `serverError` models FastAPI failing
the request when `request.json()` raises on an unparsable body. -/
inductive WebhookResponse
  | unauthorized (detail : String)
  | queued
  | serverError
deriving Repr, DecidableEq

/-- Translation of the `github_webhook` endpoint (service.py 58-97),
parameterized by the HMAC-SHA256 hex digest `mac secret body`
(`hmac.new(secret.encode(), body, sha256).hexdigest()`, an external library
call). `secret` is `settings.github_webhook_secret` (`Optional[str]`; `none`
and `""` are falsy, skipping the check). A missing or empty signature header
is rejected first; with a truthy secret, a signature different from
`"sha256=" ++ mac secret body` is rejected (`hmac.compare_digest` on equal
Python `str` values is string equality; its constant-time execution is not
observable here). Otherwise the payload is parsed and the handler returns
`{status: "queued"}` after scheduling background work. -/
def githubWebhook (mac : String → String → String) (secret : Option String)
    (req : WebhookRequest) : WebhookResponse :=
  let signature := req.signatureHeader.getD ""
  if signature = "" then .unauthorized "Missing signature"
  else if pyTruthy secret ∧ signature ≠ "sha256=" ++ mac (secret.getD "") req.body
  then .unauthorized "Invalid signature"
  else if req.bodyIsJson then .queued
  else .serverError

end Webhook

/-! ## Theorems -/

/-- Concatenating onto a nonempty string never yields the empty string. -/
theorem append_ne_empty_left (a b : String) (h : a ≠ "") : a ++ b ≠ "" := by
  intro hc
  apply h
  have hdata := congrArg String.data hc
  simp only [String.data_append] at hdata
  rcases List.append_eq_nil.mp hdata with ⟨h1, -⟩
  cases a
  simp_all

/-- Claim C2 (amended): `InstructionBuilder.build` performs no validation of
the returned instructions and never raises a refusal error. For every model
outcome it returns instructions (`Except.ok`): the model's text verbatim when
the call succeeded — whatever that text contains, including refusal phrases
or nothing at all — and the templated fallback when the model call itself
raised. -/
theorem C2_build_never_raises (modelCall : Except String String)
    (task : InstrBuilder.TaskItem) :
    (∃ s, InstrBuilder.build modelCall task = Except.ok s) ∧
      (∀ text, InstrBuilder.build (Except.ok text) task = Except.ok text) ∧
      (∀ e, InstrBuilder.build (Except.error e) task =
        Except.ok (InstrBuilder.fallbackInstructions task)) := by
  refine ⟨?_, fun _ => rfl, fun _ => rfl⟩
  cases modelCall with
  | ok s => exact ⟨s, rfl⟩
  | error e => exact ⟨InstrBuilder.fallbackInstructions task, rfl⟩

/-- Claim C2 counterexample: on the refusal reply of the spec's refusal
scenario the builder returns the refusal text as instructions instead of
raising a refusal error. -/
theorem C2_counterexample :
    InstrBuilder.build (Except.ok InstrBuilder.refusalReply)
        InstrBuilder.sampleTask = Except.ok InstrBuilder.refusalReply ∧
      (InstrBuilder.build (Except.ok InstrBuilder.refusalReply)
        InstrBuilder.sampleTask).isOk = true :=
  ⟨rfl, rfl⟩

/-- Claim C8 (amended): `clone_repo` itself is not guarded — it always issues
`git clone` and never consults the filesystem — while the idempotence lives
at its call site: `run_agent` invokes `clone_repo` only when the worktree
path does not exist, so with a pre-existing worktree the materialization step
issues no filesystem action and the directory contents are untouched. -/
theorem C8_clone_guard (fs : GitOpsM.Fs) (root url repo : String) (n : Nat) :
    GitOpsM.FsAction.gitClone url (GitOpsM.getWorktreePath root repo n) ∈
        GitOpsM.cloneRepoActions fs root url repo n ∧
      (fs.existsPath (GitOpsM.getWorktreePath root repo n) = true →
        GitOpsM.ensureWorktreeActions fs root url repo n = []) := by
  constructor
  · simp [GitOpsM.cloneRepoActions]
  · intro h
    simp [GitOpsM.ensureWorktreeActions, h]

/-- Witness for C8: a concrete filesystem on which the worktree path exists
and the guarded materialization issues nothing. -/
theorem C8_clone_guard_witness :
    GitOpsM.ensureWorktreeActions ⟨[GitOpsM.getWorktreePath "/ws" "r" 5]⟩
      "/ws" "u" "r" 5 = [] :=
  (C8_clone_guard ⟨[GitOpsM.getWorktreePath "/ws" "r" 5]⟩ "/ws" "u" "r" 5).2
    (by decide)

/-- Claim C8 counterexample: with the worktree path already existing,
`clone_repo` still issues a `git clone` of that path — it is not a no-op. -/
theorem C8_counterexample :
    GitOpsM.FsAction.gitClone "u" (GitOpsM.getWorktreePath "/ws" "r" 5) ∈
      GitOpsM.cloneRepoActions ⟨[GitOpsM.getWorktreePath "/ws" "r" 5]⟩
        "/ws" "u" "r" 5 := by
  simp [GitOpsM.cloneRepoActions]

/-- Claim C10: the webhook rejects with 401 whenever the
`X-Hub-Signature-256` header is absent (or empty), regardless of whether a
secret is configured; and with a configured (truthy) secret and a parseable
body, the request is accepted with `{status: "queued"}` iff the header equals
`"sha256=" ++ HMAC-SHA256(secret, body)`. -/
theorem C10_webhook_auth (mac : String → String → String)
    (secret : Option String) (req : Webhook.WebhookRequest) :
    ((req.signatureHeader = none ∨ req.signatureHeader = some "") →
        Webhook.githubWebhook mac secret req =
          Webhook.WebhookResponse.unauthorized "Missing signature") ∧
      (∀ s, secret = some s → s ≠ "" → req.bodyIsJson = true →
        (Webhook.githubWebhook mac secret req = Webhook.WebhookResponse.queued ↔
          req.signatureHeader = some ("sha256=" ++ mac s req.body))) := by
  constructor
  · rintro (h | h) <;> simp [Webhook.githubWebhook, h]
  · rintro s rfl hs hj
    have hptr : pyTruthy (some s) = true := by simp [pyTruthy, hs]
    have hexp : "sha256=" ++ mac s req.body ≠ "" :=
      append_ne_empty_left _ _ (by decide)
    cases hh : req.signatureHeader with
    | none => simp [Webhook.githubWebhook, hh]
    | some v =>
      have hne2 : ¬("" = "sha256=" ++ mac s req.body) := fun hc => hexp hc.symm
      by_cases hv : v = ""
      · subst hv
        simp [Webhook.githubWebhook, hh, hne2]
      · by_cases heq : v = "sha256=" ++ mac s req.body
        · subst heq
          simp [Webhook.githubWebhook, hh, hexp, hptr, hj]
        · simp [Webhook.githubWebhook, hh, hv, hptr, heq, hj]

/-- Witness for C10: a concrete accepted request with a matching signature. -/
theorem C10_witness :
    Webhook.githubWebhook (fun _ _ => "d") (some "sec")
        ⟨some "sha256=d", "x", true, "issues"⟩ =
      Webhook.WebhookResponse.queued :=
  ((C10_webhook_auth (fun _ _ => "d") (some "sec")
      ⟨some "sha256=d", "x", true, "issues"⟩).2 "sec" rfl (by decide) rfl).mpr rfl

/-- Claim C9: a reclaimer sweep removes a worktree directory only when all
guards are clear — the directory name is a digit string `N`, no running slot
holds issue number `N`, the session named for `(repo, N)` does not exist,
`cleanup_only_done` is off, and the age taken from the max of the directory
mtime and the `ace_tasks.json` mtime has reached the worktree retention.
Equivalently, a directory is never removed while any of the claim's guard
conditions holds. -/
theorem C9_reclaimer_guards (cfg : Reclaimer.CleanupCfg)
    (activeIssues : List Nat) (sessionExists : String → Bool) (now : Int)
    (dirs : List Reclaimer.WorktreeDir) :
    ∀ d ∈ Reclaimer.sweepWorktrees cfg activeIssues sessionExists now dirs,
      ∃ n, digitsVal d.name.toList = some n ∧ n ∉ activeIssues ∧
        sessionExists (Reclaimer.sessionNameForIssue d.repo n) = false ∧
        cfg.cleanupOnlyDone = false ∧
        cfg.worktreeRetentionHours * 3600 ≤ now - Reclaimer.lastActivity d := by
  intro d hd
  rw [Reclaimer.sweepWorktrees, List.mem_filter] at hd
  obtain ⟨-, hrem⟩ := hd
  unfold Reclaimer.sweepRemoves at hrem
  cases hn : digitsVal d.name.toList with
  | none => rw [hn] at hrem; exact absurd hrem (by simp)
  | some n =>
    rw [hn] at hrem
    by_cases h1 : n ∈ activeIssues
    · simp [h1] at hrem
    by_cases h2 : sessionExists (Reclaimer.sessionNameForIssue d.repo n) = true
    · simp [h1, h2] at hrem
    by_cases h3 : cfg.cleanupOnlyDone = true
    · simp [h1, h2, h3] at hrem
    by_cases h4 :
        now - Reclaimer.lastActivity d < cfg.worktreeRetentionHours * 3600
    · simp [h1, h2, h3, h4] at hrem
    · refine ⟨n, rfl, h1, ?_, ?_, by omega⟩
      · simpa using h2
      · simpa using h3

/-- Witness for C9: the sample stale directory is reclaimed, and the guard
conditions are indeed all clear for it. -/
theorem C9_witness :
    ∃ n, digitsVal Reclaimer.sampleDir.name.toList = some n ∧ n ∉ ([] : List Nat) ∧
      (fun _ => false : String → Bool)
          (Reclaimer.sessionNameForIssue Reclaimer.sampleDir.repo n) = false ∧
      (⟨false, 1⟩ : Reclaimer.CleanupCfg).cleanupOnlyDone = false ∧
      (⟨false, 1⟩ : Reclaimer.CleanupCfg).worktreeRetentionHours * 3600 ≤
        10000 - Reclaimer.lastActivity Reclaimer.sampleDir :=
  C9_reclaimer_guards ⟨false, 1⟩ [] (fun _ => false) 10000 [Reclaimer.sampleDir]
    Reclaimer.sampleDir (by decide)

/-- Claim C5 counterexample: with headers `Retry-After: "abc"` (present but
not float-parsable), `X-RateLimit-Remaining: "0"` and `X-RateLimit-Reset:
"1000"`, at `now = 500`, `base = 2`, `maxDelay = 60`, `jitter = 1`,
`attempt = 0`, the code falls back to exponential backoff (delay 3: the
unparsable `Retry-After` makes `_rate_limit_delay` return `None` without
consulting the reset header), while the claim's first-matching-rule selection
demands the rate-limit delay `max 0 (1000 - 500) + 1 = 501`. -/
theorem C5_counterexample :
    ApiClient.retryDelay 2 60 1 500 0
        (some ⟨some "abc", some "0", some "1000"⟩) = 3 ∧
      ApiClient.claimRetryDelay 2 60 1 500 0
        (some ⟨some "abc", some "0", some "1000"⟩) = 501 ∧
      (3 : ℚ) ≠ 501 := by
  have h1 : ApiClient.retryDelay 2 60 1 500 0
      (some ⟨some "abc", some "0", some "1000"⟩) =
        min (60 : ℚ) (2 * 2 ^ 0 + 1) := rfl
  have h2 : ApiClient.claimRetryDelay 2 60 1 500 0
      (some ⟨some "abc", some "0", some "1000"⟩) =
        max (0 : ℚ) (((1000 : ℤ) : ℚ) - 500) + 1 := rfl
  refine ⟨?_, ?_, by norm_num⟩
  · rw [h1]; norm_num [min_def]
  · rw [h2]; norm_num [max_def]

/-- Claim C5 (amended): delay selection of `_retry_delay`. A present
non-empty `Retry-After` header short-circuits the header rules: when
float-parsable it gives that many seconds, when unparsable the delay is the
exponential backoff — the `X-RateLimit-*` headers are not consulted. With no
(or an empty) `Retry-After` header, `X-RateLimit-Remaining == "0"` together
with a present non-empty int-parsable `X-RateLimit-Reset` gives
`max 0 (reset - now) + 1`; whenever no header rule produced a delay, the
delay is `min maxDelay (base * 2 ^ attempt + jitter)` with `jitter` drawn
uniformly from `[0, base)`. -/
theorem C5_delay_selection (base maxDelay jitter now : ℚ) (attempt : Nat)
    (h : ApiClient.Headers) :
    (∀ ra, h.retryAfter = some ra → ra ≠ "" →
        (∀ v, ApiClient.parsePyFloat ra = some v →
            ApiClient.retryDelay base maxDelay jitter now attempt (some h) = v) ∧
          (ApiClient.parsePyFloat ra = none →
            ApiClient.retryDelay base maxDelay jitter now attempt (some h) =
              min maxDelay (base * 2 ^ attempt + jitter))) ∧
      (pyTruthy h.retryAfter = false →
        h.rateLimitRemaining = some "0" →
        ∀ rs, h.rateLimitReset = some rs → rs ≠ "" →
        (∀ r, ApiClient.parsePyInt rs = some r →
            ApiClient.retryDelay base maxDelay jitter now attempt (some h) =
              max 0 ((r : ℚ) - now) + 1) ∧
          (ApiClient.parsePyInt rs = none →
            ApiClient.retryDelay base maxDelay jitter now attempt (some h) =
              min maxDelay (base * 2 ^ attempt + jitter))) ∧
      (ApiClient.rateLimitDelay now (some h) = none →
        ApiClient.retryDelay base maxDelay jitter now attempt (some h) =
          min maxDelay (base * 2 ^ attempt + jitter)) := by
  refine ⟨?_, ?_, ?_⟩
  · intro ra hra hne
    constructor
    · intro v hv
      simp [ApiClient.retryDelay, ApiClient.rateLimitDelay, pyTruthy,
        hra, hne, hv]
    · intro hv
      simp [ApiClient.retryDelay, ApiClient.rateLimitDelay, pyTruthy,
        hra, hne, hv]
  · intro htr hrem rs hrs hne
    have hres : pyTruthy (some rs) = true := by
      simp [pyTruthy, hne]
    constructor
    · intro r hr
      simp [ApiClient.retryDelay, ApiClient.rateLimitDelay, htr,
        hrem, hres, hrs, hr]
    · intro hr
      simp [ApiClient.retryDelay, ApiClient.rateLimitDelay, htr,
        hrem, hres, hrs, hr]
  · intro hnone
    simp [ApiClient.retryDelay, hnone]

/-- Witness for C5: a parsable `Retry-After: "5"` yields a 5-second delay. -/
theorem C5_witness :
    ApiClient.retryDelay 2 60 1 500 0 (some ⟨some "5", none, none⟩) = 5 :=
  ((C5_delay_selection 2 60 1 500 0 ⟨some "5", none, none⟩).1 "5" rfl
      (by decide)).1 5 (by decide)

/-- Claim C1 (code bug): on a build pass with the manager advisor disabled,
one open target-labeled PR `o/r#5` carrying one unprocessed inline review
comment (id 7), and no in-progress or ready issues,
`fetch_pr_comment_work_items` does produce the single work item with WorkKey
`pr_comment:o/r#5:7`, but `_build_work_queue` rebinds `pr_items` to the empty
list immediately before its dedup loop (agent_pool.py line 410), so the
built queue is empty: the comment contributes no queue entry at all. -/
theorem C1_pr_comments_dropped :
    Pool.fetchPrCommentWorkItems [] [(Pool.samplePr, [⟨7⟩])] =
        [⟨Pool.samplePr, "pr_comment:o/r#5:7"⟩] ∧
      Pool.buildWorkQueue Pool.sampleCfg [] [(Pool.samplePr, [⟨7⟩])]
        (Pool.fetchInProgressIssues Pool.sampleCfg [] (fun _ => false) [])
        (Pool.fetchReadyIssues Pool.sampleCfg [] (fun _ => false) []) = [] := by
  constructor <;> decide

/-- Claim C3 counterexample: a per-item workflow failure (here with message
`"instruction_refusal"`) on a pool without a latched error leaves the pool
with `fatalError` latched to the prefixed message — the claim asserts the
latched fatal error is not set. -/
theorem C3_counterexample :
    (Pool.runAgentForIssue Pool.samplePoolState 0
        (Pool.WorkflowOutcome.failure "instruction_refusal")).fatalError =
      some "❌ ERROR: instruction_refusal" ∧
      (Pool.runAgentForIssue Pool.samplePoolState 0
        (Pool.WorkflowOutcome.failure "instruction_refusal")).running = false := by
  constructor <;> decide

/-- Claim C3 (amended): a per-item workflow failure is not retried within the
run — the processed set is untouched, so the WorkKey stays deduplicated — but
the failure is not confined to the item: `_run_agent_for_issue` latches the
pool's fatal error (with the `"❌ ERROR:"` prefix) and stops the pool, and
every subsequent `process_work_queue` pass raises the latched error instead
of processing further items. -/
theorem C3_failure_latches_fatal (cfg : Pool.PoolCfg)
    (blocked : Pool.Issue → Bool) (st : Pool.PoolState) (slotIdx : Nat)
    (m : String) (hno : st.fatalError = none) :
    (Pool.runAgentForIssue st slotIdx (.failure m)).fatalError =
        some (Pool.formatFatalError m) ∧
      (Pool.runAgentForIssue st slotIdx (.failure m)).running = false ∧
      (Pool.runAgentForIssue st slotIdx (.failure m)).draining = false ∧
      (Pool.runAgentForIssue st slotIdx (.failure m)).processed = st.processed ∧
      ∀ inp, Pool.processWorkQueuePass cfg blocked
          (Pool.runAgentForIssue st slotIdx (.failure m)) inp =
        Except.error (Pool.formatFatalError m) := by
  have hfa : (Pool.runAgentForIssue st slotIdx (.failure m)).fatalError =
      some (Pool.formatFatalError m) := by
    unfold Pool.runAgentForIssue Pool.setFatalError Pool.stopPool
    simp [hno]
  refine ⟨hfa, ?_, ?_, ?_, ?_⟩
  · unfold Pool.runAgentForIssue Pool.setFatalError Pool.stopPool
    simp [hno]
  · unfold Pool.runAgentForIssue Pool.setFatalError Pool.stopPool
    simp [hno]
  · unfold Pool.runAgentForIssue Pool.setFatalError Pool.stopPool
    simp [hno]
  · intro inp
    unfold Pool.processWorkQueuePass
    rw [hfa]

/-- Characterization of `_should_retry` as the claim's retry condition. -/
theorem shouldRetry_iff (st : Nat) (h : ApiClient.Headers) :
    ApiClient.shouldRetry st h = true ↔
      (st = 429 ∨ st = 500 ∨ st = 502 ∨ st = 503 ∨ st = 504 ∨
        (st = 403 ∧ (h.rateLimitRemaining = some "0" ∨
          h.retryAfter.isSome = true))) := by
  unfold ApiClient.shouldRetry
  split_ifs with h1 h2 h3 h4 <;> simp_all
  all_goals tauto

/-- A retry (the start of attempt `k + 1`) happens in `requestAux` only when
outcome `k` was retryable and `k` is below `maxRetries`. -/
theorem requestAux_consumed (m : Nat) (o : Nat → ApiClient.Outcome) :
    ∀ fuel a k, a ≤ k →
      k + 1 < ApiClient.attemptsMade (ApiClient.requestAux m o fuel a) →
      ApiClient.retryableOutcome (o k) = true ∧ k < m := by
  intro fuel
  induction fuel with
  | zero =>
    intro a k _ hk
    simp [ApiClient.requestAux, ApiClient.attemptsMade] at hk
  | succ fuel ih =>
    intro a k hak hk
    unfold ApiClient.requestAux at hk
    cases ho : o a with
    | transportError =>
      rw [ho] at hk
      by_cases hm : m ≤ a
      · rw [if_pos hm] at hk
        simp [ApiClient.attemptsMade] at hk
        omega
      · rw [if_neg hm] at hk
        rcases Nat.eq_or_lt_of_le hak with heq | hlt
        · subst heq
          refine ⟨?_, by omega⟩
          rw [ho]
          rfl
        · exact ih (a + 1) k (by omega) hk
    | response stc hc =>
      rw [ho] at hk
      simp only [] at hk
      by_cases hcond : 400 ≤ stc ∧ ApiClient.shouldRetry stc hc = true
      · rw [if_pos hcond] at hk
        by_cases hm : m ≤ a
        · rw [if_pos hm] at hk
          simp [ApiClient.attemptsMade] at hk
          omega
        · rw [if_neg hm] at hk
          rcases Nat.eq_or_lt_of_le hak with heq | hlt
          · subst heq
            refine ⟨?_, by omega⟩
            rw [ho]
            simp [ApiClient.retryableOutcome, hcond.1, hcond.2]
          · exact ih (a + 1) k (by omega) hk
      · rw [if_neg hcond] at hk
        simp [ApiClient.attemptsMade] at hk
        omega

/-- With enough fuel, `requestAux` always makes the attempt it is at. -/
theorem requestAux_first_attempt (m : Nat) (o : Nat → ApiClient.Outcome) :
    ∀ fuel a, a ≤ m → m + 1 - a ≤ fuel →
      a + 1 ≤ ApiClient.attemptsMade (ApiClient.requestAux m o fuel a) := by
  intro fuel
  induction fuel with
  | zero => intro a ham hfuel; omega
  | succ fuel ih =>
    intro a ham hfuel
    unfold ApiClient.requestAux
    cases o a with
    | transportError =>
      simp only []
      by_cases hm : m ≤ a
      · rw [if_pos hm]; simp [ApiClient.attemptsMade]
      · rw [if_neg hm]
        have := ih (a + 1) (by omega) (by omega)
        omega
    | response st h =>
      simp only []
      by_cases hc : 400 ≤ st ∧ ApiClient.shouldRetry st h = true
      · rw [if_pos hc]
        by_cases hm : m ≤ a
        · rw [if_pos hm]; simp [ApiClient.attemptsMade]
        · rw [if_neg hm]
          have := ih (a + 1) (by omega) (by omega)
          omega
      · rw [if_neg hc]; simp [ApiClient.attemptsMade]

/-- A stretch of retryable outcomes within the retry budget is actually
retried: attempt `k` is made whenever outcomes `a .. k-1` were retryable. -/
theorem requestAux_progress (m : Nat) (o : Nat → ApiClient.Outcome) :
    ∀ fuel a k, a ≤ k → k ≤ m → m + 1 - a ≤ fuel →
      (∀ j, a ≤ j → j < k → ApiClient.retryableOutcome (o j) = true) →
      k + 1 ≤ ApiClient.attemptsMade (ApiClient.requestAux m o fuel a) := by
  intro fuel
  induction fuel with
  | zero => intro a k hak hkm hfuel _; omega
  | succ fuel ih =>
    intro a k hak hkm hfuel hj
    rcases Nat.eq_or_lt_of_le hak with heq | hlt
    · subst heq
      exact requestAux_first_attempt m o (fuel + 1) a (by omega) hfuel
    · have hra : ApiClient.retryableOutcome (o a) = true :=
        hj a (Nat.le_refl a) hlt
      unfold ApiClient.requestAux
      cases ho : o a with
      | transportError =>
        simp only []
        rw [if_neg (by omega)]
        exact ih (a + 1) k (by omega) hkm (by omega)
          (fun j h1 h2 => hj j (by omega) h2)
      | response st h =>
        simp only []
        rw [ho] at hra
        have hc : 400 ≤ st ∧ ApiClient.shouldRetry st h = true := by
          simp only [ApiClient.retryableOutcome, Bool.and_eq_true,
            decide_eq_true_eq] at hra
          exact hra
        rw [if_pos hc, if_neg (by omega)]
        exact ih (a + 1) k (by omega) hkm (by omega)
          (fun j h1 h2 => hj j (by omega) h2)

/-- Claim C4: the retry layer's `_should_retry` accepts exactly the statuses
429, 500, 502, 503, 504, and 403 with `X-RateLimit-Remaining == "0"` or a
`Retry-After` header present; inside `_request`, a retry happens only after a
retryable outcome (such a response, or a transport error) at an attempt index
below `maxRetries`, and conversely every stretch of retryable outcomes within
the budget is in fact retried; in particular a response with status 400, 401,
404 or 422 is returned from the first attempt and is never followed by a
retry. -/
theorem C4_retry_policy (maxRetries : Nat)
    (outcomes : Nat → ApiClient.Outcome) :
    (∀ st h, ApiClient.shouldRetry st h = true ↔
        (st = 429 ∨ st = 500 ∨ st = 502 ∨ st = 503 ∨ st = 504 ∨
          (st = 403 ∧ (h.rateLimitRemaining = some "0" ∨
            h.retryAfter.isSome = true)))) ∧
      (∀ k, k + 1 <
          ApiClient.attemptsMade (ApiClient.request maxRetries outcomes) →
        ApiClient.retryableOutcome (outcomes k) = true ∧ k < maxRetries) ∧
      (∀ k, k ≤ maxRetries →
        (∀ j, j < k → ApiClient.retryableOutcome (outcomes j) = true) →
        k + 1 ≤ ApiClient.attemptsMade (ApiClient.request maxRetries outcomes)) ∧
      (∀ st h, outcomes 0 = ApiClient.Outcome.response st h →
        (st = 400 ∨ st = 401 ∨ st = 404 ∨ st = 422) →
        ApiClient.request maxRetries outcomes =
          ApiClient.ReqResult.ok st h 1) := by
  refine ⟨shouldRetry_iff, ?_, ?_, ?_⟩
  · intro k hk
    exact requestAux_consumed maxRetries outcomes (maxRetries + 1) 0 k
      (Nat.zero_le k) hk
  · intro k hkm hj
    exact requestAux_progress maxRetries outcomes (maxRetries + 1) 0 k
      (Nat.zero_le k) hkm (by omega) (fun j _ h2 => hj j h2)
  · intro st h ho hst
    have hsr : ApiClient.shouldRetry st h = false := by
      rcases hst with rfl | rfl | rfl | rfl <;> simp [ApiClient.shouldRetry]
    simp [ApiClient.request, ApiClient.requestAux, ho, hsr]

/-- Witness for C4: a 404 response is returned after exactly one attempt. -/
theorem C4_witness :
    ApiClient.request 3
        (fun _ => ApiClient.Outcome.response 404 ⟨none, none, none⟩) =
      ApiClient.ReqResult.ok 404 ⟨none, none, none⟩ 1 :=
  (C4_retry_policy 3
      (fun _ => ApiClient.Outcome.response 404 ⟨none, none, none⟩)).2.2.2
    404 ⟨none, none, none⟩ rfl (Or.inr (Or.inr (Or.inl rfl)))

/-- Witness for C3: the latched error after a concrete failure. -/
theorem C3_witness :
    (Pool.runAgentForIssue Pool.samplePoolState 0
        (Pool.WorkflowOutcome.failure "boom")).fatalError =
      some (Pool.formatFatalError "boom") :=
  (C3_failure_latches_fatal Pool.sampleCfg (fun _ => false)
      Pool.samplePoolState 0 "boom" rfl).1

/-- The signature bookkeeping never changes the nudge counter. -/
theorem sigUpdate_sent (env : Nudge.WaitEnv) (k : Nat) (now : Int)
    (st : Nudge.WaitState) :
    (Nudge.sigUpdate env k now st).nudgesSent = st.nudgesSent := by
  unfold Nudge.sigUpdate
  split <;> rfl

/-- With no session, nudging disabled, or a non-positive
`task_nudge_after_seconds`, the nudge block is never entered. -/
theorem nudgeStep_disabled (cfg : Nudge.NudgeCfg) (env : Nudge.WaitEnv)
    (hasSession : Bool) (k : Nat) (now : Int) (st : Nudge.WaitState)
    (hdis : hasSession = false ∨ cfg.nudgeEnabled = false ∨
      cfg.nudgeAfterSeconds ≤ 0) :
    Nudge.nudgeStep cfg env hasSession k now st = (none, st) := by
  unfold Nudge.nudgeStep
  rw [if_neg]
  rintro ⟨hs, he, ha, -⟩
  rcases hdis with h | h | h <;> simp_all
  all_goals omega

/-- With `nudgeMaxAttempts = 0` and a live session, the nudge block never
signals `nudgeExceeded`. -/
theorem nudgeStep_no_exceeded (cfg : Nudge.NudgeCfg) (env : Nudge.WaitEnv)
    (hasSession : Bool) (k : Nat) (now : Int) (st : Nudge.WaitState)
    (hcap : cfg.nudgeMaxAttempts = 0) (hsess : env.sessionExists k = true) :
    (Nudge.nudgeStep cfg env hasSession k now st).1 ≠
      some Nudge.WaitResult.nudgeExceeded := by
  unfold Nudge.nudgeStep
  split_ifs with h1 h2 h3 _
  all_goals simp_all

/-- Under the conditions that disable the nudge block, the wait loop never
increments the nudge counter. -/
theorem waitAux_disabled (cfg : Nudge.NudgeCfg) (env : Nudge.WaitEnv)
    (hasSession : Bool) (poll t0 : Int) (tmo : Option Int)
    (hdis : hasSession = false ∨ cfg.nudgeEnabled = false ∨
      cfg.nudgeAfterSeconds ≤ 0) :
    ∀ fuel k st,
      (Nudge.waitAux cfg env hasSession poll t0 tmo fuel k st).2 =
        st.nudgesSent := by
  intro fuel
  induction fuel with
  | zero => intro k st; rfl
  | succ fuel ih =>
    intro k st
    unfold Nudge.waitAux
    by_cases hm : env.marker k = true
    · rw [if_pos hm]
    · rw [if_neg hm,
        nudgeStep_disabled cfg env hasSession k (t0 + k * poll) _ hdis]
      simp only []
      cases tmo with
      | none =>
        simp only []
        rw [ih]
        exact sigUpdate_sent env k _ st
      | some ts =>
        simp only []
        by_cases ht : ts > 0 ∧ ts ≤ (t0 + k * poll) - t0
        · rw [if_pos ht]
          exact sigUpdate_sent env k _ st
        · rw [if_neg ht, ih]
          exact sigUpdate_sent env k _ st

/-- With `nudgeMaxAttempts = 0` and an ever-live session, the wait loop never
exits with `nudge_exceeded`. -/
theorem waitAux_no_exceeded (cfg : Nudge.NudgeCfg) (env : Nudge.WaitEnv)
    (hasSession : Bool) (poll t0 : Int) (tmo : Option Int)
    (hcap : cfg.nudgeMaxAttempts = 0)
    (hsess : ∀ k, env.sessionExists k = true) :
    ∀ fuel k st,
      (Nudge.waitAux cfg env hasSession poll t0 tmo fuel k st).1 ≠
        Nudge.WaitResult.nudgeExceeded := by
  intro fuel
  induction fuel with
  | zero => intro k st h; cases h
  | succ fuel ih =>
    intro k st
    unfold Nudge.waitAux
    by_cases hm : env.marker k = true
    · rw [if_pos hm]; intro h; cases h
    · rw [if_neg hm]
      have hne := nudgeStep_no_exceeded cfg env hasSession k
        (t0 + k * poll) (Nudge.sigUpdate env k (t0 + k * poll) st)
        hcap (hsess k)
      cases hns : Nudge.nudgeStep cfg env hasSession k (t0 + k * poll)
          (Nudge.sigUpdate env k (t0 + k * poll) st) with
      | mk o st2 =>
        rw [hns] at hne
        cases o with
        | some r =>
          simp only []
          intro h
          apply hne
          rw [← h]
        | none =>
          simp only []
          cases tmo with
          | none => exact ih (k + 1) st2
          | some ts =>
            simp only []
            by_cases ht : ts > 0 ∧ ts ≤ (t0 + k * poll) - t0
            · rw [if_pos ht]; intro h; cases h
            · rw [if_neg ht]; exact ih (k + 1) st2

/-- Claim C7 counterexample: with `nudgeMaxAttempts = 0`, nudging enabled,
a 60-second staleness threshold, a 30-second interval, a live session, a
constant progress signature and no marker, the loop has already delivered two
nudges after three iterations (poll 60 s, start at t = 100) — the claim says
no nudge is ever sent. -/
theorem C7_counterexample :
    Nudge.sampleNudgeCfg.nudgeMaxAttempts = 0 ∧
      Nudge.waitLoop Nudge.sampleNudgeCfg Nudge.sampleWaitEnv true 60 100
          none 3 = (Nudge.WaitResult.fuelExhausted, 2) ∧
      (2 : Nat) ≠ 0 := by
  refine ⟨rfl, by decide, by decide⟩

/-- Claim C7 (amended): `nudgeMaxAttempts = 0` does not disable nudging — the
source checks the cap only when `task_nudge_max_attempts > 0`, so a zero
value removes the cap and nudges keep being sent without limit: with an
ever-live session the loop never exits with `nudge_exceeded`. Nudging is
disabled instead by `task_nudge_enabled = false`, by
`task_nudge_after_seconds ≤ 0`, or by the absence of a session name: under
any of those, no nudge is ever sent. -/
theorem C7_zero_cap_means_unlimited (cfg : Nudge.NudgeCfg)
    (env : Nudge.WaitEnv) (hasSession : Bool) (poll t0 : Int)
    (tmo : Option Int) (fuel : Nat) :
    ((hasSession = false ∨ cfg.nudgeEnabled = false ∨
        cfg.nudgeAfterSeconds ≤ 0) →
      (Nudge.waitLoop cfg env hasSession poll t0 tmo fuel).2 = 0) ∧
      (cfg.nudgeMaxAttempts = 0 → (∀ k, env.sessionExists k = true) →
        (Nudge.waitLoop cfg env hasSession poll t0 tmo fuel).1 ≠
          Nudge.WaitResult.nudgeExceeded) := by
  constructor
  · intro hdis
    unfold Nudge.waitLoop
    rw [waitAux_disabled cfg env hasSession poll t0 tmo hdis]
  · intro hcap hsess
    exact waitAux_no_exceeded cfg env hasSession poll t0 tmo hcap hsess fuel 0 _

/-- Witness for C7: with nudging disabled by configuration, a concrete run
sends zero nudges. -/
theorem C7_witness :
    (Nudge.waitLoop ⟨false, 60, 30, 2⟩ Nudge.sampleWaitEnv true 60 100
        none 5).2 = 0 :=
  (C7_zero_cap_means_unlimited ⟨false, 60, 30, 2⟩ Nudge.sampleWaitEnv true
      60 100 none 5).1 (Or.inr (Or.inl rfl))

/-- `_get_idle_slot` only ever returns the index of an idle slot. -/
theorem getIdleSlotIdx_idle :
    ∀ (l : List Pool.AgentSlot) (i : Nat),
      Pool.getIdleSlotIdx l = some i →
      ∃ s, l[i]? = some s ∧ s.state = Pool.AgentState.idle := by
  intro l
  induction l with
  | nil => intro i h; cases h
  | cons s rest ih =>
    intro i h
    unfold Pool.getIdleSlotIdx at h
    by_cases hs : s.state = Pool.AgentState.idle
    · rw [if_pos hs] at h
      cases h
      exact ⟨s, by simp, hs⟩
    · rw [if_neg hs] at h
      cases hj : Pool.getIdleSlotIdx rest with
      | none => rw [hj] at h; cases h
      | some j =>
        rw [hj] at h
        simp only [Option.map_some'] at h
        cases h
        obtain ⟨s2, hget, hidle⟩ := ih j hj
        exact ⟨s2, by simpa using hget, hidle⟩

/-- A successful `spawn_agent` hands the workflow a state in which the chosen
slot is already reserved (running, WorkKey recorded) and the WorkKey is
already in the processed set. -/
theorem spawnAgent_reserves (st : Pool.PoolState) (iss : Pool.Issue)
    (key : String) (st2 : Pool.PoolState) (i : Nat)
    (h : Pool.spawnAgent st iss key = (st2, some i)) :
    key ∈ st2.processed ∧
      st2.slots[i]?.map Pool.AgentSlot.state =
        some Pool.AgentState.running ∧
      (st2.slots[i]?.bind Pool.AgentSlot.workKey) = some key := by
  unfold Pool.spawnAgent at h
  cases hg : Pool.getIdleSlotIdx st.slots with
  | none => rw [hg] at h; simp at h
  | some j =>
    rw [hg] at h
    simp only [] at h
    injection h with h1 h2
    injection h2 with hji
    subst hji
    subst h1
    obtain ⟨s, hget, -⟩ := getIdleSlotIdx_idle st.slots j hg
    have hlen : j < st.slots.length := (List.getElem?_eq_some.mp hget).1
    refine ⟨by simp, ?_, ?_⟩ <;>
      simp [List.getElem?_set_eq_of_lt _ hlen]

/-- `spawn_agent` never books a slot that is currently running: the running
slot keeps running and the spawn lands elsewhere (or nowhere). -/
theorem spawnAgent_preserves_running (st : Pool.PoolState) (iss : Pool.Issue)
    (key : String) (i : Nat) (s : Pool.AgentSlot)
    (hs : st.slots[i]? = some s) (hrun : s.state = Pool.AgentState.running) :
    (Pool.spawnAgent st iss key).2 ≠ some i ∧
      ((Pool.spawnAgent st iss key).1.slots[i]?.map Pool.AgentSlot.state) =
        some Pool.AgentState.running := by
  unfold Pool.spawnAgent
  cases hg : Pool.getIdleSlotIdx st.slots with
  | none => simp [hs, hrun]
  | some j =>
    obtain ⟨s2, hg2, hidle⟩ := getIdleSlotIdx_idle st.slots j hg
    have hji : j ≠ i := by
      intro he
      subst he
      rw [hs] at hg2
      injection hg2 with hss
      rw [← hss, hrun] at hidle
      cases hidle
    simp only []
    refine ⟨by simp [hji], ?_⟩
    rw [List.getElem?_set_ne hji, hs]
    simp [hrun]

/-- The built queue, unfolded: with `pr_items` rebound to `[]`, it is the
actionable in-progress entries followed by the actionable ready entries. -/
theorem buildWorkQueue_eq (cfg : Pool.PoolCfg) (processed : List String)
    (prs : List (Pool.Issue × List Pool.ReviewComment))
    (ipf rf : List Pool.Issue) :
    Pool.buildWorkQueue cfg processed prs ipf rf =
      ((Pool.filterActionable cfg ipf).filter
          (fun i => !decide (i.number ∈ ([] : List Nat)))).map
        (fun i => (i, Pool.issueKey i)) ++
      ((Pool.filterActionable cfg rf).filter
          (fun i => !decide (i.number ∈ ([] : List Nat)))).map
        (fun i => (i, Pool.issueKey i)) := rfl

/-- Keys of a built queue were never in the processed set: both fetch
functions filter processed WorkKeys out before the queue is assembled. -/
theorem buildWorkQueue_keys_not_processed (cfg : Pool.PoolCfg)
    (processed : List String) (blocked : Pool.Issue → Bool)
    (prs : List (Pool.Issue × List Pool.ReviewComment))
    (ipRaw rRaw : List Pool.Issue) :
    ∀ k ∈ (Pool.buildWorkQueue cfg processed prs
        (Pool.fetchInProgressIssues cfg processed blocked ipRaw)
        (Pool.fetchReadyIssues cfg processed blocked rRaw)).map Prod.snd,
      k ∉ processed := by
  intro k hk
  obtain ⟨e, he, rfl⟩ := List.mem_map.mp hk
  rw [buildWorkQueue_eq] at he
  rcases List.mem_append.mp he with hmem | hmem <;>
    obtain ⟨i, hi, rfl⟩ := List.mem_map.mp hmem
  · have hm := (List.mem_filter.mp
      (List.mem_filter.mp (List.mem_filter.mp hi).1).1).2
    simp only [Bool.and_eq_true, Bool.not_eq_true',
      decide_eq_false_iff_not] at hm
    show Pool.issueKey i ∉ processed
    tauto
  · have hm := (List.mem_filter.mp (List.mem_filter.mp (List.mem_filter.mp
      (List.mem_filter.mp (List.mem_filter.mp hi).1).1).1).1).2
    simp only [Bool.not_eq_true', decide_eq_false_iff_not] at hm
    exact hm

/-- Keys of a built queue are pairwise distinct when each board query lists
each key once and the two status queries are disjoint. -/
theorem buildWorkQueue_keys_nodup (cfg : Pool.PoolCfg)
    (processed : List String) (blocked : Pool.Issue → Bool)
    (prs : List (Pool.Issue × List Pool.ReviewComment))
    (ipRaw rRaw : List Pool.Issue)
    (hip : (ipRaw.map Pool.issueKey).Nodup)
    (hr : (rRaw.map Pool.issueKey).Nodup)
    (hdisj : List.Disjoint (ipRaw.map Pool.issueKey)
      (rRaw.map Pool.issueKey)) :
    ((Pool.buildWorkQueue cfg processed prs
        (Pool.fetchInProgressIssues cfg processed blocked ipRaw)
        (Pool.fetchReadyIssues cfg processed blocked rRaw)).map
      Prod.snd).Nodup := by
  have hsubIP : List.Sublist
      ((Pool.filterActionable cfg
          (Pool.fetchInProgressIssues cfg processed blocked ipRaw)).filter
        (fun i => !decide (i.number ∈ ([] : List Nat)))) ipRaw := by
    refine (List.filter_sublist _).trans ?_
    unfold Pool.filterActionable
    refine (List.filter_sublist _).trans ?_
    unfold Pool.fetchInProgressIssues
    exact List.filter_sublist _
  have hsubR : List.Sublist
      ((Pool.filterActionable cfg
          (Pool.fetchReadyIssues cfg processed blocked rRaw)).filter
        (fun i => !decide (i.number ∈ ([] : List Nat)))) rRaw := by
    refine (List.filter_sublist _).trans ?_
    unfold Pool.filterActionable
    refine (List.filter_sublist _).trans ?_
    unfold Pool.fetchReadyIssues
    exact ((List.filter_sublist _).trans (List.filter_sublist _)).trans
      (List.filter_sublist _)
  rw [buildWorkQueue_eq, List.map_append, List.map_map, List.map_map]
  have hc : (Prod.snd ∘ fun i : Pool.Issue => (i, Pool.issueKey i)) =
      Pool.issueKey := rfl
  rw [hc]
  refine List.Nodup.append (hip.sublist (hsubIP.map _))
    (hr.sublist (hsubR.map _)) ?_
  intro a ha hb
  exact hdisj ((hsubIP.map _).subset ha) ((hsubR.map _).subset hb)

/-- `spawn_agent` either leaves the log and processed set unchanged (no idle
slot) or appends the WorkKey to both. -/
theorem spawnAgent_log_cases (st : Pool.PoolState) (iss : Pool.Issue)
    (key : String) :
    ((Pool.spawnAgent st iss key).1.spawnLog = st.spawnLog ∧
        (Pool.spawnAgent st iss key).1.processed = st.processed) ∨
      ((Pool.spawnAgent st iss key).1.spawnLog = st.spawnLog ++ [key] ∧
        (Pool.spawnAgent st iss key).1.processed = st.processed ++ [key]) := by
  unfold Pool.spawnAgent
  cases Pool.getIdleSlotIdx st.slots <;> simp

/-- The spawn loop preserves the log/processed invariant when fed a queue of
distinct keys that are all outside the processed set. -/
theorem spawnLoop_inv :
    ∀ (queue : List (Pool.Issue × String)) (st : Pool.PoolState),
      Pool.poolInv st → (queue.map Prod.snd).Nodup →
      (∀ k ∈ queue.map Prod.snd, k ∉ st.processed) →
      Pool.poolInv (Pool.spawnLoop st queue) := by
  intro queue
  induction queue with
  | nil => intro st hI _ _; exact hI
  | cons e rest ih =>
    obtain ⟨iss, key⟩ := e
    intro st hI hnd hnp
    unfold Pool.spawnLoop
    by_cases hidle : Pool.idleCount st = 0
    · rw [if_pos hidle]; exact hI
    · rw [if_neg hidle]
      have hkeyP : key ∉ st.processed := hnp key (by simp)
      have hkeyL : key ∉ st.spawnLog := fun hmem => hkeyP (hI.2 key hmem)
      have hndr : (rest.map Prod.snd).Nodup := by
        simp only [List.map_cons] at hnd
        exact (List.nodup_cons.mp hnd).2
      have hkeyr : key ∉ rest.map Prod.snd := by
        simp only [List.map_cons] at hnd
        exact (List.nodup_cons.mp hnd).1
      rcases spawnAgent_log_cases st iss key with ⟨hlog, hproc⟩ | ⟨hlog, hproc⟩
      · apply ih _ ⟨hlog ▸ hI.1, ?_⟩ hndr ?_
        · intro k hk
          rw [hlog] at hk
          rw [hproc]
          exact hI.2 k hk
        · intro k hk
          rw [hproc]
          exact hnp k (by simp [hk])
      · apply ih _ ⟨?_, ?_⟩ hndr ?_
        · rw [hlog]
          refine hI.1.append (List.nodup_singleton key) ?_
          intro a ha hb
          rw [List.mem_singleton] at hb
          subst hb
          exact hkeyL ha
        · intro k hk
          rw [hlog] at hk
          rw [hproc]
          rcases List.mem_append.mp hk with h | h
          · exact List.mem_append_left _ (hI.2 k h)
          · exact List.mem_append_right _ h
        · intro k hk
          rw [hproc]
          intro hmem
          rcases List.mem_append.mp hmem with h | h
          · exact hnp k (by simp [hk]) h
          · rw [List.mem_singleton] at h
            subst h
            exact hkeyr hk

/-- One `process_work_queue` pass preserves the log/processed invariant. -/
theorem processPass_inv (cfg : Pool.PoolCfg) (blocked : Pool.Issue → Bool)
    (st : Pool.PoolState) (inp : Pool.PassInputs)
    (hI : Pool.poolInv st) (hwf : Pool.passWF inp = true) :
    Pool.poolInv (Pool.stepEvent cfg blocked st (Pool.PoolEvent.pass inp)) := by
  obtain ⟨hip, hr, hdisj⟩ : (inp.inProgressRaw.map Pool.issueKey).Nodup ∧
      (inp.readyRaw.map Pool.issueKey).Nodup ∧
      List.Disjoint (inp.inProgressRaw.map Pool.issueKey)
        (inp.readyRaw.map Pool.issueKey) := by
    unfold Pool.passWF at hwf
    simp only [Bool.and_eq_true, decide_eq_true_eq, List.all_eq_true] at hwf
    refine ⟨hwf.1.1, hwf.1.2, ?_⟩
    intro a ha hb
    have := hwf.2 a ha
    simp only [Bool.not_eq_true', decide_eq_false_iff_not] at this
    exact this hb
  unfold Pool.stepEvent Pool.processWorkQueuePass
  cases hf : st.fatalError with
  | some e => exact hI
  | none =>
    simp only []
    by_cases hmax : cfg.maxIssuesPerRun > 0 ∧
        cfg.maxIssuesPerRun ≤ st.sessionProcessed
    · rw [if_pos hmax]; exact hI
    · rw [if_neg hmax]
      have hnd := buildWorkQueue_keys_nodup cfg st.processed blocked inp.prs
        inp.inProgressRaw inp.readyRaw hip hr hdisj
      have hnp := buildWorkQueue_keys_not_processed cfg st.processed blocked
        inp.prs inp.inProgressRaw inp.readyRaw
      by_cases hlim : cfg.maxIssuesPerRun > 0
      · rw [if_pos hlim]
        apply spawnLoop_inv _ _ hI
        · rw [List.map_take]
          exact hnd.sublist (List.take_sublist _ _)
        · intro k hk
          rw [List.map_take] at hk
          exact hnp k ((List.take_sublist _ _).subset hk)
      · rw [if_neg hlim]
        exact spawnLoop_inv _ _ hI hnd hnp

/-- Workflow completion events do not touch the spawn log or the processed
set. -/
theorem finish_inv (st : Pool.PoolState) (i : Nat)
    (outcome : Pool.WorkflowOutcome) (hI : Pool.poolInv st) :
    Pool.poolInv (Pool.runAgentForIssue st i outcome) := by
  unfold Pool.runAgentForIssue Pool.setFatalError Pool.stopPool
  cases outcome with
  | success => exact hI
  | failure m =>
    by_cases hf : ({ st with
        failedCount := st.failedCount + 1,
        sessionProcessed := st.sessionProcessed + 1 } :
          Pool.PoolState).fatalError.isSome
    · simp only [if_pos hf]; exact hI
    · simp only [if_neg hf]; exact hI

/-- Any well-formed event run preserves the log/processed invariant. -/
theorem runEvents_inv (cfg : Pool.PoolCfg) (blocked : Pool.Issue → Bool) :
    ∀ (evts : List Pool.PoolEvent) (st : Pool.PoolState),
      Pool.poolInv st → (∀ e ∈ evts, Pool.eventWF e = true) →
      Pool.poolInv (Pool.runEvents cfg blocked st evts) := by
  intro evts
  induction evts with
  | nil => intro st hI _; exact hI
  | cons e rest ih =>
    intro st hI hwf
    cases e with
    | pass inp =>
      have hp : Pool.passWF inp = true :=
        hwf (Pool.PoolEvent.pass inp) (by simp)
      exact ih _ (processPass_inv cfg blocked st inp hI hp)
        (fun e2 he2 => hwf e2 (by simp [he2]))
    | finish i outcome =>
      exact ih _ (finish_inv st i outcome hI)
        (fun e2 he2 => hwf e2 (by simp [he2]))

/-- Claim C6: `spawn_agent` reserves the chosen idle slot (flipping it to
running and recording the WorkKey) and adds the WorkKey to the processed set
in the very state the per-item workflow task later runs in; a slot that is
running is never re-booked by a later spawn; and over any sequence of
well-formed queue-processing passes and workflow completions — including
failing workflows, which never un-process a key — no WorkKey is ever spawned
twice within the process run. -/
theorem C6_spawn_discipline (cfg : Pool.PoolCfg)
    (blocked : Pool.Issue → Bool) (maxAgents : Nat)
    (evts : List Pool.PoolEvent)
    (hwf : ∀ e ∈ evts, Pool.eventWF e = true) :
    (Pool.runEvents cfg blocked (Pool.initState maxAgents)
        evts).spawnLog.Nodup ∧
      (∀ st iss key st2 i, Pool.spawnAgent st iss key = (st2, some i) →
        key ∈ st2.processed ∧
          st2.slots[i]?.map Pool.AgentSlot.state =
            some Pool.AgentState.running ∧
          (st2.slots[i]?.bind Pool.AgentSlot.workKey) = some key) ∧
      (∀ st iss key i s, st.slots[i]? = some s →
        s.state = Pool.AgentState.running →
        (Pool.spawnAgent st iss key).2 ≠ some i ∧
          ((Pool.spawnAgent st iss key).1.slots[i]?.map
            Pool.AgentSlot.state) = some Pool.AgentState.running) := by
  refine ⟨?_, ?_, ?_⟩
  · have hinit : Pool.poolInv (Pool.initState maxAgents) :=
      ⟨List.nodup_nil, fun k hk => absurd hk (List.not_mem_nil k)⟩
    exact (runEvents_inv cfg blocked evts _ hinit hwf).1
  · intro st iss key st2 i h
    exact spawnAgent_reserves st iss key st2 i h
  · intro st iss key i s hs hrun
    exact spawnAgent_preserves_running st iss key i s hs hrun

/-- Witness for C6: a concrete run — a pass spawning the sample ready issue,
its workflow failing, then another pass — never spawns a WorkKey twice. -/
theorem C6_witness :
    (Pool.runEvents Pool.sampleCfg (fun _ => false) (Pool.initState 2)
        [Pool.PoolEvent.pass ⟨[], [], [Pool.samplePr]⟩,
         Pool.PoolEvent.finish 0 (Pool.WorkflowOutcome.failure "boom"),
         Pool.PoolEvent.pass ⟨[], [], [Pool.samplePr]⟩]).spawnLog.Nodup :=
  (C6_spawn_discipline Pool.sampleCfg (fun _ => false) 2
    [Pool.PoolEvent.pass ⟨[], [], [Pool.samplePr]⟩,
     Pool.PoolEvent.finish 0 (Pool.WorkflowOutcome.failure "boom"),
     Pool.PoolEvent.pass ⟨[], [], [Pool.samplePr]⟩] (by decide)).1

end AceSpec
